import Mathlib

set_option autoImplicit false

/-!
Verification of the census-serving layer in src/main.py against its design
specification.  The handlers are embedded shallowly: the relational store is an
external collaborator, so each handler model takes the rows fetched by its SQL
queries as an explicit argument; everything the handler itself computes
(validation, grouping, projection, merging, exception routing, query-text
construction) is translated directly from the Python source.
-/

namespace Census

/-! ## String primitives (structurally recursive so that concrete runs
reduce inside the kernel) -/

/-- Python str.lower() on the ASCII names/levels/TRU labels handled here. -/
def pyLower (s : String) : String := String.mk (s.data.map Char.toLower)

/-- Python str.upper(), used on the sort order in list_states. -/
def pyUpper (s : String) : String := String.mk (s.data.map Char.toUpper)

/-- ASCII whitespace as recognized by Python str.strip(). -/
def isPySpace (c : Char) : Bool :=
  c = ' ' || c = '\t' || c = '\n' || c = '\x0d' || c = '\x0b' || c = '\x0c'

/-- Python str.strip(): drop surrounding whitespace. -/
def pyStrip (s : String) : String :=
  String.mk (((s.data.dropWhile isPySpace).reverse.dropWhile isPySpace).reverse)

/-- Split a character list on a separator character; like Python str.split
with an explicit separator, the empty input yields one empty piece. -/
def splitChar (sep : Char) : List Char → List (List Char)
  | [] => [[]]
  | c :: rest =>
    let r := splitChar sep rest
    if c = sep then [] :: r
    else
      match r with
      | [] => [[c]]
      | h :: t => (c :: h) :: t

/-- Python s.split(sep) for a one-character separator. -/
def pySplit (s : String) (sep : Char) : List String :=
  (splitChar sep s.data).map String.mk

/-- Python sep.join(pieces). -/
def joinSep (sep : String) : List String → String
  | [] => ""
  | [x] => x
  | x :: rest => x ++ sep ++ joinSep sep rest

/-- Python str.capitalize(): first character uppercased, the rest lowered. -/
def pyCapitalize (s : String) : String :=
  match s.data with
  | [] => ""
  | c :: rest => String.mk (c.toUpper :: rest.map Char.toLower)

/-- Postgres TRIM(x): drop surrounding space characters. -/
def sqlTrim (s : String) : String :=
  String.mk (((s.data.dropWhile (fun c => c = ' ')).reverse.dropWhile
    (fun c => c = ' ')).reverse)

/-- SQL TRIM(LOWER(x)) as it appears in every WHERE clause of main.py. -/
def trimLower (s : String) : String := sqlTrim (pyLower s)

/-- s contains sub as a contiguous substring. -/
def ContainsSub (s sub : String) : Prop := ∃ p q, s = p ++ sub ++ q

/-! ## Ordered dictionaries (CPython dicts preserve insertion order) -/

/-- Association-list lookup; models Python dict indexing for present keys. -/
def lookupA {α β : Type} [DecidableEq α] : List (α × β) → α → Option β
  | [], _ => none
  | (k, v) :: rest, a => if k = a then some v else lookupA rest a

/-- Python dict assignment d[k] = v: replace in place when the key exists,
otherwise append, preserving CPython insertion order. -/
def setA {α β : Type} [DecidableEq α] : List (α × β) → α → β → List (α × β)
  | [], a, b => [(a, b)]
  | (k, v) :: rest, a, b => if k = a then (a, b) :: rest else (k, v) :: setA rest a b

/-- Keys of an association list, in insertion order. -/
def keysA {α β : Type} (l : List (α × β)) : List α := l.map Prod.fst

/-! ## Shared fact-row model and exception routing -/

/-- One row of the wide census_data fact table (the columns the modelled
handlers read).  Counts default to 0 so concrete rows can set only the fields
a test cares about. -/
structure Row where
  state : Nat := 0
  district : Nat := 0
  subdistt : Nat := 0
  town_village : Nat := 0
  level : String := ""
  name : String := ""
  tru : String := ""
  no_hh : Nat := 0
  tot_p : Nat := 0
  tot_m : Nat := 0
  tot_f : Nat := 0
  p_06 : Nat := 0
  m_06 : Nat := 0
  f_06 : Nat := 0
  p_lit : Nat := 0
  m_lit : Nat := 0
  f_lit : Nat := 0
  tot_work_p : Nat := 0
  tot_work_m : Nat := 0
  tot_work_f : Nat := 0
deriving Repr, DecidableEq

/-- A total/male/female metric block. -/
structure Triple where
  total : Nat := 0
  male : Nat := 0
  female : Nat := 0
deriving Repr, DecidableEq

/-- JSON scalar values appearing in list_states responses. -/
inductive JVal where
  | nat : Nat → JVal
  | str : String → JVal
deriving Repr, DecidableEq

/-- Exceptions raised inside a handler's try block: an HTTPException or a
dict KeyError. -/
inductive TryErr where
  | http : Nat → String → TryErr
  | keyError : String → TryErr
deriving Repr, DecidableEq

/-- Python str(e) for the two exception shapes above (Starlette's
HTTPException renders as "code: detail", KeyError as the quoted key). -/
def renderExc : TryErr → String
  | .http code detail => toString code ++ ": " ++ detail
  | .keyError k => "\x27" ++ k ++ "\x27"

/-- The blanket `except Exception as e: raise HTTPException(500, str(e))`
wrapped around every handler body in main.py: any exception raised inside the
try block -- including an explicit HTTPException(404) -- resurfaces as a 500. -/
def runTry {α : Type} (body : Except TryErr α) : Except (Nat × String) α :=
  match body with
  | .error e => .error (500, renderExc e)
  | .ok v => .ok v

/-! ## Shared request validation (identical in every states-list endpoint) -/

def allowedTru : List String := ["total", "rural", "urban"]

/-- The check `if tru and tru.lower() not in allowed_tru` (Python truthiness:
None and the empty string skip the check). -/
def truInvalid : Option String → Bool
  | none => false
  | some t => t ≠ "" && !(allowedTru.contains (pyLower t))

/-- Python truthiness of an optional string parameter. -/
def truTruthy : Option String → Bool
  | none => false
  | some t => t ≠ ""

/-- The states parse used by every multi-state endpoint:
[s.strip().lower() for s in states.split(",") if s.strip()]. -/
def parseStates (states : String) : List String :=
  (pySplit states ',').filterMap (fun s =>
    if pyStrip s = "" then none else some (pyLower (pyStrip s)))

/-! ## list_states (GET /states), src/main.py lines 46-147 -/

def baseColumns : List String := ["state", "name", "level"]

def countFieldNames : List String :=
  ["district_count", "subdistrict_count", "village_count", "town_count"]

/-- The count_fields dict: output field name to (code column, level name). -/
def countFieldSpec : String → Option (String × String)
  | "district_count" => some ("district", "district")
  | "subdistrict_count" => some ("subdistt", "sub-district")
  | "village_count" => some ("town_village", "village")
  | "town_count" => some ("town_village", "town")
  | _ => none

def allowedFields : List String := baseColumns ++ countFieldNames

/-- The fields parse in list_states:
[f.strip() for f in fields.split(",") if f.strip() in allowed_fields]. -/
def parseFields (fields : String) : List String :=
  ((pySplit fields ',').map pyStrip).filter (fun f => allowedFields.contains f)

/-- The base columns among the selected fields, in the caller's order. -/
def selBaseOf (f : String) : List String :=
  (parseFields f).filter (fun g => baseColumns.contains g)

/-- The count fields among the selected fields, in the caller's order. -/
def selCountsOf (f : String) : List String :=
  (parseFields f).filter (fun g => countFieldNames.contains g)

/-- Value of a base column of a state row, as the SELECT returns it. -/
def baseColumnValue (r : Row) : String → JVal
  | "state" => .nat r.state
  | "name" => .str r.name
  | "level" => .str r.level
  | _ => .nat 0

/-- The record produced for one state row by SELECT over the selected base
columns: keys appear exactly in the selected order. -/
def projectedRow (sel : List String) (r : Row) : List (String × JVal) :=
  sel.map (fun c => (c, baseColumnValue r c))

/-- Inner loop of the count fetch: for each (state, count) result row, seed
counts_by_state[state] if absent and set its entry for this count field. -/
def addCountRows (field : String) (rows : List (Nat × Nat))
    (acc : List (Nat × List (String × Nat))) : List (Nat × List (String × Nat)) :=
  rows.foldl (fun a p => setA a p.1 (setA ((lookupA a p.1).getD []) field p.2)) acc

/-- counts_by_state, built by iterating over the selected count fields and
running one count query per field.  countRes maps a (lowercased) level name to
that query's (state, count) result rows; the store is external. -/
def countsByState (countRes : String → List (Nat × Nat))
    (fields : List String) : List (Nat × List (String × Nat)) :=
  fields.foldl (fun acc field =>
    match countFieldSpec field with
    | some (_, levelName) => addCountRows field (countRes (pyLower levelName)) acc
    | none => acc) []

/-- The count-merge loop: for each result, read result["state"] (KeyError when
the projection dropped it) and update the dict with that state's counts. -/
def mergeCounts (counts : List (Nat × List (String × Nat))) :
    List (List (String × JVal)) → Except TryErr (List (List (String × JVal)))
  | [] => .ok []
  | obj :: rest =>
    match lookupA obj "state" with
    | none => .error (.keyError "state")
    | some v =>
      let entry : List (String × Nat) :=
        match v with
        | .nat n => (lookupA counts n).getD []
        | .str _ => []
      let objUpd := entry.foldl (fun o p => setA o p.1 (JVal.nat p.2)) obj
      match mergeCounts counts rest with
      | .error e => .error e
      | .ok os => .ok (objUpd :: os)

/-- Handler body of list_states inside the try block, for an already-computed
selected field list. -/
def listStatesBody (selected : List String) (stateRows : List Row)
    (countRes : String → List (Nat × Nat)) :
    Except TryErr (List (List (String × JVal))) :=
  let selBase := selected.filter (fun f => baseColumns.contains f)
  let selCounts := selected.filter (fun f => countFieldNames.contains f)
  mergeCounts (countsByState countRes selCounts)
    (stateRows.map (projectedRow selBase))

/-- GET /states.  stateRows are the rows the base query returns (state-level
rows, ordering/limit applied by the external store); countRes gives each count
query's result.  The 400 for an empty field selection is raised before the try
block, so it survives; anything raised inside resurfaces as a 500. -/
def list_states (fields : Option String) (stateRows : List Row)
    (countRes : String → List (Nat × Nat)) :
    Except (Nat × String) (List (List (String × JVal))) :=
  if truTruthy fields then
    let sel := parseFields (fields.getD "")
    if sel = [] then .error (400, "No valid fields selected")
    else runTry (listStatesBody sel stateRows countRes)
  else runTry (listStatesBody ["state", "name"] stateRows countRes)

/-- The f-string base_query of list_states up to (and excluding) the LIMIT
keyword: base columns, sort field/order and the optional state filter are all
interpolated into the SQL text. -/
def listStatesQueryPre (selBase : List String) (sortBy sortOrder : String)
    (stateCode : Option Int) : String :=
  "\n        SELECT * FROM (\n            SELECT DISTINCT ON (state) "
    ++ joinSep ", " selBase
    ++ "\n            FROM census_data\n            WHERE TRIM(LOWER(level)) = \x27state\x27\n            ORDER BY state, "
    ++ (if sortBy = "" then "state" else sortBy) ++ " "
    ++ pyUpper (if sortOrder = "" then "asc" else sortOrder)
    ++ "\n        ) AS sorted_states\n        "
    ++ (match stateCode with
        | some sc => "WHERE state = " ++ toString sc
        | none => "")
    ++ "\n        ORDER BY "
    ++ (if sortBy = "" then "state" else sortBy) ++ " "
    ++ pyUpper (if sortOrder = "" then "asc" else sortOrder)
    ++ "\n        "

/-- The complete f-string base_query of list_states (src/main.py lines
106-116): the caller-controlled limit and offset are interpolated into the
SQL text, exactly as every other dynamic piece. -/
def listStatesBaseQuery (selBase : List String) (sortBy sortOrder : String)
    (stateCode : Option Int) (limit offset : Int) : String :=
  listStatesQueryPre selBase sortBy sortOrder stateCode
    ++ ("LIMIT " ++ toString limit ++ " OFFSET " ++ toString offset)
    ++ "\n    "

/-- list_states runs conn.fetch(base_query) with no bind parameters at all. -/
def listStatesFetchArgs : List String := []

/-- Validation FastAPI applies to the list_states limit/offset query
parameters: Query(ge=1, le=1000) and Query(ge=0). -/
def listStatesLimitValid (limit : Int) : Bool := 1 ≤ limit && limit ≤ 1000

def listStatesOffsetValid (offset : Int) : Bool := 0 ≤ offset

/-! ## get_state_population (GET /state-population), lines 150-221 -/

/-- A row of the meta query: SELECT DISTINCT name, state. -/
structure MetaRow where
  name : String := ""
  state : Nat := 0
deriving Repr, DecidableEq

/-- A row of the population query: name, state, tru, tot_p AS population. -/
structure PopRow where
  name : String := ""
  state : Nat := 0
  tru : String := ""
  population : Nat := 0
deriving Repr, DecidableEq

/-- One emitted state entry; population is present iff include_population. -/
structure PopObj where
  name : String
  state : Nat
  population : Option (List (String × Nat))
deriving Repr, DecidableEq

/-- The fill loop: every population row writes its count into the population
dict of every matching state entry, keyed by the row's lowercased TRU. -/
def popFill (results : List PopObj) (popRows : List PopRow) : List PopObj :=
  popRows.foldl (fun res r =>
    res.map (fun o =>
      if o.state = r.state then
        { o with population :=
            o.population.map (fun p => setA p (pyLower r.tru) r.population) }
      else o)) results

/-- GET /state-population.  metaRows/popRows are the two queries' results.
The 400s are raised before the try block; the explicit 404 for an empty meta
result is raised inside it, so runTry converts it to a 500. -/
def get_state_population (states : String) (tru : Option String)
    (include_population : Bool) (metaRows : List MetaRow)
    (popRows : List PopRow) : Except (Nat × String) (List PopObj) :=
  if truInvalid tru then
    .error (400, "Invalid tru value. Use: total, rural, or urban")
  else if parseStates states = [] then
    .error (400, "No valid state names provided.")
  else runTry (
    if metaRows = [] then .error (.http 404 "No matching states found")
    else
      let results := metaRows.map (fun m =>
        { name := m.name, state := m.state,
          population := if include_population then some [] else none })
      .ok (if include_population then popFill results popRows else results))

/-! ## get_state_gender_population (GET /state-gender-population), lines 224-284 -/

/-- One grouped state object of the gender endpoint. -/
structure GObj where
  name : String
  state : Nat
  population : List (String × Triple)
deriving Repr, DecidableEq

def genderData (r : Row) : Triple := ⟨r.tot_p, r.tot_m, r.tot_f⟩

/-- One iteration of the grouping loop: seed name/state on first sight of a
state id, then write the row's metric block under its lowercased TRU label
(unconditionally nested, whether or not the request fixed tru). -/
def genderStep (acc : List (Nat × GObj)) (r : Row) : List (Nat × GObj) :=
  match lookupA acc r.state with
  | none =>
    acc ++ [(r.state,
      { name := r.name, state := r.state,
        population := [(pyLower r.tru, genderData r)] })]
  | some o =>
    setA acc r.state
      { o with population := setA o.population (pyLower r.tru) (genderData r) }

def genderGroup (rows : List Row) : List (Nat × GObj) :=
  rows.foldl genderStep []

/-- GET /state-gender-population; rows is the fetched result set. -/
def get_state_gender_population (states : String) (tru : Option String)
    (rows : List Row) : Except (Nat × String) (List GObj) :=
  if truInvalid tru then .error (400, "Invalid TRU value")
  else if parseStates states = [] then
    .error (400, "No valid state names provided.")
  else runTry (
    if rows = [] then .error (.http 404 "No data found")
    else .ok ((genderGroup rows).map Prod.snd))

/-! ## get_state_literacy (GET /state-literacy), lines 287-364 -/

/-- JSON-ish values stored in the literacy grouping dict (grouped[key] holds
either a flat metrics dict or a dict keyed by TRU labels, and in the
degenerate empty-TRU corner a mix of the two). -/
inductive LJ where
  | num : Nat → LJ
  | obj : List (String × LJ) → LJ

def litData (r : Row) : LJ :=
  .obj [("total", .num r.p_lit), ("male", .num r.m_lit), ("female", .num r.f_lit)]

/-- One iteration of the literacy grouping loop.  truIsNone reflects the
source's `tru_key = row["tru"].lower() if tru is None else None`; a truthy
tru_key nests the metrics under it, otherwise grouped[key] is overwritten
flatly. -/
def litStep (truIsNone : Bool) (acc : List ((Nat × String) × LJ)) (r : Row) :
    List ((Nat × String) × LJ) :=
  let key := (r.state, r.name)
  let cur := (lookupA acc key).getD (.obj [])
  if truIsNone ∧ pyLower r.tru ≠ "" then
    let inner := match cur with | .obj l => l | .num _ => []
    setA acc key (.obj (setA inner (pyLower r.tru) (litData r)))
  else setA acc key (litData r)

def litGroup (truIsNone : Bool) (rows : List Row) : List ((Nat × String) × LJ) :=
  rows.foldl (litStep truIsNone) []

/-- One emitted literacy object; the tru field is present (Some) only when
the request supplied a truthy tru, holding tru.capitalize(). -/
structure LObj where
  name : String
  state : Nat
  tru : Option String
  literacy : LJ

/-- GET /state-literacy; rows is the fetched result set. -/
def get_state_literacy (states : String) (tru : Option String)
    (rows : List Row) : Except (Nat × String) (List LObj) :=
  if truInvalid tru then .error (400, "Invalid TRU value")
  else if parseStates states = [] then
    .error (400, "No valid state names provided.")
  else runTry (
    if rows = [] then .error (.http 404 "No data found")
    else
      .ok ((litGroup tru.isNone rows).map (fun kv =>
        { name := kv.1.2, state := kv.1.1,
          tru := if truTruthy tru then some (pyCapitalize (tru.getD "")) else none,
          literacy := kv.2 })))

/-! ## get_state_households (GET /state-households), lines 619-694 -/

/-- The households block: a flat count when the request fixed tru, otherwise
a dict keyed by TRU labels. -/
inductive HVal where
  | flat : Nat → HVal
  | byTru : List (String × Nat) → HVal
deriving Repr, DecidableEq

structure HObj where
  name : String
  state : Nat
  households : HVal
  population : Triple
  under6 : Triple
deriving Repr, DecidableEq

/-- One iteration of the households grouping loop: on first sight of a state
the whole object (name, households seed, population, under_6) is built from
that row; afterwards only the per-TRU households entry is written (and only
when the request left tru unset). -/
def hhStep (truFixed : Bool) (acc : List (Nat × HObj)) (r : Row) :
    List (Nat × HObj) :=
  let acc1 :=
    match lookupA acc r.state with
    | some _ => acc
    | none =>
      acc ++ [(r.state,
        { name := r.name, state := r.state,
          households := if truFixed then .flat r.no_hh else .byTru [],
          population := ⟨r.tot_p, r.tot_m, r.tot_f⟩,
          under6 := ⟨r.p_06, r.m_06, r.f_06⟩ })]
  if truFixed then acc1
  else
    match lookupA acc1 r.state with
    | some o =>
      let inner := match o.households with | .byTru l => l | .flat _ => []
      setA acc1 r.state
        { o with households := .byTru (setA inner (pyLower r.tru) r.no_hh) }
    | none => acc1

def hhGroup (truFixed : Bool) (rows : List Row) : List (Nat × HObj) :=
  rows.foldl (hhStep truFixed) []

/-- GET /state-households; rows is the fetched result set. -/
def get_state_households (states : String) (tru : Option String)
    (rows : List Row) : Except (Nat × String) (List HObj) :=
  if truInvalid tru then .error (400, "Invalid TRU value")
  else if parseStates states = [] then
    .error (400, "No valid state names provided.")
  else runTry (
    if rows = [] then .error (.http 404 "No data found")
    else .ok ((hhGroup (truTruthy tru) rows).map Prod.snd))

/-! ## get_state_locations name resolution (lines 563-582) -/

/-- The meta query of get_state_locations / get_location_hierarchy: its WHERE
clause on a census_data row, for an already-normalized query name. -/
def stateNameMatches (queryName : String) (r : Row) : Prop :=
  trimLower r.level = "state" ∧ trimLower r.name = queryName

/-- conn.fetchrow on the DISTINCT state/name query: the query carries LIMIT 1
and no ORDER BY, so the handler receives whichever matching row the store
happens to list first. -/
def resolveStateRow (matching : List MetaRow) : Option MetaRow :=
  matching.head?

/-! ## get_location_hierarchy place routing (lines 697-802) -/

/-- The places query filter: rows of the state whose TRIM(LOWER(level)) is
town or village. -/
def placesFilter (stateCode : Nat) (r : Row) : Bool :=
  r.state = stateCode &&
    (trimLower r.level = "town" || trimLower r.level = "village")

/-- The two child buckets attached at a (district, subdistt) key. -/
structure Buckets where
  towns : List String := []
  villages : List String := []
deriving Repr, DecidableEq

/-- One iteration of the place-routing loop: rows whose level lowercases
exactly to "town" go to the towns bucket, every other fetched row goes to the
villages bucket. -/
def routeStep (acc : List ((Nat × Nat) × Buckets)) (p : Row) :
    List ((Nat × Nat) × Buckets) :=
  let key := (p.district, p.subdistt)
  let b := (lookupA acc key).getD {}
  if pyLower p.level = "town" then
    setA acc key { b with towns := b.towns ++ [p.name] }
  else
    setA acc key { b with villages := b.villages ++ [p.name] }

/-- place_map as built by get_location_hierarchy from the fetched place rows
of one state. -/
def place_map (stateCode : Nat) (db : List Row) : List ((Nat × Nat) × Buckets) :=
  (db.filter (placesFilter stateCode)).foldl routeStep []

/-- Case-insensitive string equality (the comparison the spec describes for
level routing). -/
def ciEq (a b : String) : Bool := pyLower a = pyLower b

/-- The buckets attached at a key of the place map (empty if absent). -/
def bucketsAt (acc : List ((Nat × Nat) × Buckets)) (key : Nat × Nat) : Buckets :=
  (lookupA acc key).getD {}

/-- The first fetched row carrying the given state code. -/
def firstRowFor (rows : List Row) (k : Nat) : Option Row :=
  rows.find? (fun r => r.state == k)

/-- The parts of a households object written only at creation time. -/
def hhCore (o : HObj) : String × Nat × Triple × Triple :=
  (o.name, o.state, o.population, o.under6)

/-- The creation-time parts as a single row determines them. -/
def hhCoreOfRow (r : Row) : String × Nat × Triple × Triple :=
  (r.name, r.state, ⟨r.tot_p, r.tot_m, r.tot_f⟩, ⟨r.p_06, r.m_06, r.f_06⟩)

/-- The per-TRU households entry of an object (none when the block is flat). -/
def hhTruLookup (o : HObj) (t : String) : Option Nat :=
  match o.households with
  | .byTru l => lookupA l t
  | .flat _ => none

/-- The identifying fields of a gender grouping object, written only at
creation time. -/
def gCore (o : GObj) : String × Nat := (o.name, o.state)

/-- The identifying fields as one row determines them. -/
def gCoreOfRow (r : Row) : String × Nat := (r.name, r.state)

/-- The last fetched row with the given state code and lowercased TRU label
(the row whose metric block survives last-write-wins merging). -/
def lastRowFor (rows : List Row) (k : Nat) (t : String) : Option Row :=
  (rows.filter (fun r => r.state == k && (pyLower r.tru == t))).getLast?

/-! ## get_district_population_breakdown (GET /district-population-breakdown),
lines 805-882 -/

/-- A row of the district breakdown query (after the join with state names). -/
structure DRow where
  district : String := ""
  state : String := ""
  tru : String := ""
  total : Nat := 0
  male : Nat := 0
  female : Nat := 0
deriving Repr, DecidableEq

/-- The nested defaultdict grouping: state name, then district name, then
lowercased TRU label. -/
def districtGroup (rows : List DRow) :
    List (String × List (String × List (String × Triple))) :=
  rows.foldl (fun acc r =>
    let s := (lookupA acc r.state).getD []
    let d := (lookupA s r.district).getD []
    setA acc r.state
      (setA s r.district (setA d (pyLower r.tru) ⟨r.total, r.male, r.female⟩))) []

structure DistObj where
  name : String
  population : List (String × Triple)
deriving Repr, DecidableEq

structure StateObj where
  state : String
  districts : List DistObj
deriving Repr, DecidableEq

/-- GET /district-population-breakdown; rows is the joined query's result.
There is no empty-result check: zero rows compose to an empty 200 list. -/
def get_district_population_breakdown (states : String) (tru : Option String)
    (rows : List DRow) : Except (Nat × String) (List StateObj) :=
  if truInvalid tru then .error (400, "Invalid tru value")
  else if parseStates states = [] then
    .error (400, "No valid state names provided.")
  else runTry (
    .ok ((districtGroup rows).map (fun sd =>
      { state := sd.1,
        districts := sd.2.map (fun dt =>
          { name := dt.1, population := dt.2 }) })))

/-- The IN-clause placeholder list: ", ".join of the dollar placeholders. -/
def placeholdersFor (n : Nat) : String :=
  joinSep ", " ((List.range n).map (fun i => "$" ++ toString (i + 1)))

/-- The district breakdown query text (lines 827-848): state names and tru
are bound via placeholders, but limit and offset are interpolated into the
text, appended only when truthy, with no range validation anywhere. -/
def districtQuery (stateValues : List String) (tru : Option String)
    (limit offset : Option Int) : String :=
  "\n        SELECT c.name AS district, s.name AS state, c.tru,\n               c.tot_p AS total, c.tot_m AS male, c.tot_f AS female\n        FROM census_data c\n        JOIN (\n            SELECT DISTINCT state, name\n            FROM census_data\n            WHERE TRIM(LOWER(level)) = \x27state\x27 AND TRIM(LOWER(name)) IN ("
    ++ placeholdersFor stateValues.length
    ++ ")\n        ) s ON c.state = s.state\n        WHERE TRIM(LOWER(c.level)) = \x27district\x27\n    "
    ++ (if truTruthy tru then
          " AND TRIM(LOWER(c.tru)) = $" ++ toString (stateValues.length + 1)
        else "")
    ++ " ORDER BY s.name, c.name"
    ++ (match limit with
        | some n => if n ≠ 0 then " LIMIT " ++ toString n else ""
        | none => "")
    ++ (match offset with
        | some n => if n ≠ 0 then " OFFSET " ++ toString n else ""
        | none => "")

/-- The bind-parameter list passed with the district query: the lowercased
state names, plus the normalized tru when truthy -- never limit or offset. -/
def districtQueryArgs (stateValues : List String) (tru : Option String) :
    List String :=
  stateValues ++
    (if truTruthy tru then [pyLower (pyStrip (tru.getD ""))] else [])

/-! ## Claim-level predicates -/

/-- The composite (DimensionKey, TRU) of a state-level row. -/
def truKeyOf (r : Row) : Nat × String := (r.state, pyLower r.tru)

/-- The store's uniqueness invariant: at most one row per (state, TRU). -/
def UniqueByKeyTru (rows : List Row) : Prop :=
  rows.Pairwise (fun a b => truKeyOf a ≠ truKeyOf b)

/-- All rows of one state carry the same display name. -/
def NameConsistent (rows : List Row) : Prop :=
  ∀ a ∈ rows, ∀ b ∈ rows, a.state = b.state → a.name = b.name

/-- Extensional equality of per-TRU metric dicts. -/
def PopEquiv (p q : List (String × Triple)) : Prop :=
  ∀ t, lookupA p t = lookupA q t

/-- Two optional grouped objects agree as mappings: same presence, same
identifying fields, and extensionally equal per-TRU metric blocks. -/
def GObjEquiv : Option GObj → Option GObj → Prop
  | none, none => True
  | some o₁, some o₂ =>
    o₁.name = o₂.name ∧ o₁.state = o₂.state ∧ PopEquiv o₁.population o₂.population
  | _, _ => False

/-! ## Association-list lemmas -/

@[simp]
theorem lookupA_nil {α β : Type} [DecidableEq α] (a : α) :
    lookupA ([] : List (α × β)) a = none := rfl

@[simp]
theorem lookupA_cons {α β : Type} [DecidableEq α] (k : α) (v : β)
    (rest : List (α × β)) (a : α) :
    lookupA ((k, v) :: rest) a = if k = a then some v else lookupA rest a := rfl

theorem lookupA_append {α β : Type} [DecidableEq α] (l m : List (α × β)) (a : α) :
    lookupA (l ++ m) a =
      match lookupA l a with
      | some v => some v
      | none => lookupA m a := by
  induction l with
  | nil => simp
  | cons p rest ih =>
    obtain ⟨k, v⟩ := p
    by_cases h : k = a <;> simp [h, ih]

theorem lookupA_setA {α β : Type} [DecidableEq α] (l : List (α × β)) (a : α)
    (b : β) (c : α) :
    lookupA (setA l a b) c = if a = c then some b else lookupA l c := by
  induction l with
  | nil => simp [setA, lookupA]
  | cons p rest ih =>
    obtain ⟨k, v⟩ := p
    by_cases hk : k = a
    · subst hk
      by_cases h : k = c <;> simp [setA, h]
    · by_cases h : k = c
      · subst h
        have hac : ¬ a = k := fun hc => hk hc.symm
        simp [setA, hk, hac]
      · simp [setA, hk, h, ih]

theorem keysA_setA {α β : Type} [DecidableEq α] (l : List (α × β)) (a : α) (b : β) :
    keysA (setA l a b) = if a ∈ keysA l then keysA l else keysA l ++ [a] := by
  induction l with
  | nil => simp [setA, keysA]
  | cons p rest ih =>
    obtain ⟨k, v⟩ := p
    by_cases hk : k = a
    · subst hk
      simp [setA, keysA]
    · have hne : ¬ a = k := fun hc => hk hc.symm
      rw [show setA ((k, v) :: rest) a b = (k, v) :: setA rest a b by
        simp [setA, hk]]
      rw [show keysA ((k, v) :: setA rest a b) = k :: keysA (setA rest a b) from
        rfl, ih]
      by_cases hmem : a ∈ List.map Prod.fst rest <;>
        simp [keysA, hmem, hne] at *

theorem keysA_projectedRow (sel : List String) (r : Row) :
    keysA (projectedRow sel r) = sel := by
  induction sel with
  | nil => rfl
  | cons c rest ih => simpa [keysA, projectedRow] using ih

theorem lookupA_projectedRow (sel : List String) (r : Row) (k : String) :
    lookupA (projectedRow sel r) k =
      if k ∈ sel then some (baseColumnValue r k) else none := by
  induction sel with
  | nil => simp [projectedRow]
  | cons c rest ih =>
    by_cases h : c = k
    · subst h
      simp [projectedRow]
    · have : ¬ k = c := fun hc => h hc.symm
      simp [projectedRow, h, this] at ih ⊢
      exact ih

theorem mergeCounts_cons_noState (counts : List (Nat × List (String × Nat)))
    (obj : List (String × JVal)) (rest : List (List (String × JVal)))
    (h : lookupA obj "state" = none) :
    mergeCounts counts (obj :: rest) = .error (.keyError "state") := by
  simp only [mergeCounts, h]

theorem mergeCounts_nil_id (objs : List (List (String × JVal)))
    (h : ∀ o ∈ objs, lookupA o "state" ≠ none) :
    mergeCounts [] objs = .ok objs := by
  induction objs with
  | nil => rfl
  | cons obj rest ih =>
    have hobj := h obj (List.mem_cons_self _ _)
    have hrest := ih (fun o ho => h o (List.mem_cons_of_mem _ ho))
    cases hv : lookupA obj "state" with
    | none => exact absurd hv hobj
    | some v => cases v <;> simp [mergeCounts, hv, hrest]

/-- C10: when the fields parameter is omitted, list_states projects exactly
the two default fields state and name, in that order, and merges no count
fields into any returned object. -/
theorem list_states_default_projection (stateRows : List Row)
    (countRes : String → List (Nat × Nat)) :
    list_states none stateRows countRes =
      .ok (stateRows.map (fun r =>
        [("state", JVal.nat r.state), ("name", JVal.str r.name)])) := by
  have key : ∀ rows : List Row,
      mergeCounts [] (rows.map (projectedRow ["state", "name"])) =
        .ok (rows.map (fun r =>
          [("state", JVal.nat r.state), ("name", JVal.str r.name)])) := by
    intro rows
    induction rows with
    | nil => rfl
    | cons r rest ih =>
      have hproj : projectedRow ["state", "name"] r =
          [("state", JVal.nat r.state), ("name", JVal.str r.name)] := rfl
      simp only [List.map_cons, mergeCounts, hproj, lookupA_cons, ih,
        lookupA_nil, Option.getD_none, List.foldl_nil]
      simp
  calc list_states none stateRows countRes
      = runTry (mergeCounts []
          (stateRows.map (projectedRow ["state", "name"]))) := rfl
    _ = _ := by rw [key stateRows]; rfl

/-- C8: a valid field selection that drops the state field makes the
count-merge step fail on result["state"]; the KeyError is swallowed by the
blanket except and the whole request becomes a 500 server error whenever at
least one state row was fetched. -/
theorem list_states_missing_state_500 (f : String) (stateRows : List Row)
    (countRes : String → List (Nat × Nat))
    (hne : parseFields f ≠ [])
    (hstate : "state" ∉ parseFields f)
    (hrows : stateRows ≠ []) :
    list_states (some f) stateRows countRes = .error (500, "\x27state\x27") := by
  have hf : f ≠ "" := by
    intro h
    subst h
    exact hne (by decide)
  have htruthy : truTruthy (some f) = true := by simp [truTruthy, hf]
  obtain ⟨r, rest, rfl⟩ := List.exists_cons_of_ne_nil hrows
  have hnb : "state" ∉ (parseFields f).filter (fun g => baseColumns.contains g) := by
    intro hmem
    exact hstate (List.mem_of_mem_filter hmem)
  have hlook : lookupA
      (projectedRow ((parseFields f).filter (fun g => baseColumns.contains g)) r)
      "state" = none := by
    rw [lookupA_projectedRow, if_neg hnb]
  unfold list_states
  rw [if_pos htruthy]
  simp only [Option.getD_some]
  rw [if_neg hne]
  show runTry (listStatesBody (parseFields f) (r :: rest) countRes) = _
  unfold listStatesBody
  simp only [List.map_cons]
  rw [mergeCounts_cons_noState _ _ _ hlook]
  rfl

theorem list_states_missing_state_500_witness :
    parseFields "name" ≠ [] ∧ "state" ∉ parseFields "name" ∧
      ([{ name := "Karnataka", level := "STATE", state := 1 }] : List Row) ≠ [] ∧
      list_states (some "name")
        [{ name := "Karnataka", level := "STATE", state := 1 }]
        (fun _ => []) = .error (500, "\x27state\x27") :=
  ⟨by decide, by decide, by simp,
    list_states_missing_state_500 "name"
      [{ name := "Karnataka", level := "STATE", state := 1 }]
      (fun _ => []) (by decide) (by decide) (by simp)⟩

/-! ## String append and substring helpers -/

theorem strAppend_empty (s : String) : s ++ "" = s := by
  apply String.ext
  simp [String.data_append]

theorem containsSub_mid (p sub q : String) : ContainsSub (p ++ sub ++ q) sub :=
  ⟨p, q, rfl⟩

theorem containsSub_end (p sub : String) : ContainsSub (p ++ sub) sub :=
  ⟨p, "", (strAppend_empty (p ++ sub)).symm⟩

theorem containsSub_of_infix (s sub : String)
    (h : List.IsInfix sub.data s.data) : ContainsSub s sub := by
  obtain ⟨p, q, hpq⟩ := h
  refine ⟨String.mk p, String.mk q, ?_⟩
  apply String.ext
  simp only [String.data_append]
  exact hpq.symm

/-! ## C2: zero-match handling -/

/-- C2 (evaluating the code at the failing input): a syntactically valid
request whose filter matches zero fact rows does not surface as a 404.
get_state_population raises its 404 inside the try block, where the blanket
except converts it into a 500 server error; get_district_population_breakdown
has no zero-row check at all and returns a successful empty list. -/
theorem zero_match_divergence :
    get_state_population "karnataka" none true [] [] =
      .error (500, "404: No matching states found") ∧
    get_district_population_breakdown "karnataka" none [] = .ok [] :=
  ⟨rfl, rfl⟩

/-! ## C3: limit/offset handling in query construction -/

set_option maxRecDepth 40000 in
/-- C3 counterexample: with limit=77 and offset=5 the list_states query text
contains the interpolated values while the fetch call passes no bind
parameters, and the district breakdown endpoint happily builds a query for
limit=5000, far beyond the claimed server-side bound of 1000. -/
theorem limit_offset_interpolated_cex :
    ContainsSub (listStatesBaseQuery ["state", "name"] "state" "asc" none 77 5)
      "LIMIT 77 OFFSET 5" ∧
    listStatesFetchArgs = [] ∧
    ContainsSub (districtQuery ["karnataka"] none (some 5000) (some 0))
      " LIMIT 5000" :=
  ⟨⟨listStatesQueryPre ["state", "name"] "state" "asc" none, "\n    ", by decide⟩,
   rfl,
   containsSub_of_infix _ _ (by decide)⟩

/-- C3 amended: the caller-controlled limit and offset are interpolated into
the query text as decimal literals, not bound as parameters: list_states
passes no bind parameters at all, and the district query's bind list holds
only the state names and the optional tru value.  Range bounds exist only as
list_states request validation; the district endpoint builds a query for any
nonzero limit/offset with no bounds, skipping the clause when the value is
zero or absent. -/
theorem limit_offset_amended :
    (∀ (selBase : List String) (sortBy sortOrder : String) (sc : Option Int)
        (limit offset : Int),
        ContainsSub (listStatesBaseQuery selBase sortBy sortOrder sc limit offset)
          ("LIMIT " ++ toString limit ++ " OFFSET " ++ toString offset)) ∧
    listStatesFetchArgs = [] ∧
    (∀ (sv : List String) (tru : Option String) (l o : Int), l ≠ 0 → o ≠ 0 →
        ContainsSub (districtQuery sv tru (some l) (some o))
          (" LIMIT " ++ toString l) ∧
        ContainsSub (districtQuery sv tru (some l) (some o))
          (" OFFSET " ++ toString o)) ∧
    (∀ (sv : List String) (tru : Option String) (a : String),
        a ∈ districtQueryArgs sv tru →
        a ∈ sv ∨ a = pyLower (pyStrip (tru.getD ""))) := by
  refine ⟨?_, rfl, ?_, ?_⟩
  · intro selBase sortBy sortOrder sc limit offset
    exact ⟨listStatesQueryPre selBase sortBy sortOrder sc, "\n    ", rfl⟩
  · intro sv tru l o hl ho
    unfold districtQuery
    have hlim : (match some l with
        | some n => if n ≠ 0 then " LIMIT " ++ toString n else ""
        | none => "") = " LIMIT " ++ toString l := by
      show (if l ≠ 0 then " LIMIT " ++ toString l else "") = _
      rw [if_pos hl]
    have hoff : (match some o with
        | some n => if n ≠ 0 then " OFFSET " ++ toString n else ""
        | none => "") = " OFFSET " ++ toString o := by
      show (if o ≠ 0 then " OFFSET " ++ toString o else "") = _
      rw [if_pos ho]
    rw [hlim, hoff]
    exact ⟨containsSub_mid _ _ _, containsSub_end _ _⟩
  · intro sv tru a ha
    unfold districtQueryArgs at ha
    rcases List.mem_append.mp ha with h | h
    · exact Or.inl h
    · right
      by_cases ht : truTruthy tru
      · simp [ht] at h
        exact h
      · simp [ht] at h

theorem limit_offset_amended_witness :
    ContainsSub (districtQuery ["karnataka"] (some "Rural") (some 10) (some 20))
      (" LIMIT " ++ toString (10 : Int)) ∧
    ContainsSub (districtQuery ["karnataka"] (some "Rural") (some 10) (some 20))
      (" OFFSET " ++ toString (20 : Int)) :=
  limit_offset_amended.2.2.1 ["karnataka"] (some "Rural") 10 20
    (by decide) (by decide)

/-! ## C4: field projection order -/

theorem runTry_ok {α : Type} (b : Except TryErr α) (v : α)
    (h : runTry b = .ok v) : b = .ok v := by
  cases b with
  | error e => simp [runTry] at h
  | ok w => simpa [runTry] using h

theorem keysA_foldl_setA (entries : List (String × Nat)) (obj : List (String × JVal)) :
    ∃ rest, keysA (entries.foldl (fun o p => setA o p.1 (JVal.nat p.2)) obj) =
      keysA obj ++ rest ∧ ∀ k ∈ rest, k ∈ entries.map Prod.fst := by
  induction entries generalizing obj with
  | nil => exact ⟨[], by simp, by simp⟩
  | cons e es ih =>
    obtain ⟨rest, hkeys, hsub⟩ := ih (setA obj e.1 (JVal.nat e.2))
    rw [List.foldl_cons]
    by_cases hmem : e.1 ∈ keysA obj
    · refine ⟨rest, ?_, ?_⟩
      · rw [hkeys, keysA_setA, if_pos hmem]
      · intro k hk
        simpa using Or.inr (hsub k hk)
    · refine ⟨e.1 :: rest, ?_, ?_⟩
      · rw [hkeys, keysA_setA, if_neg hmem, List.append_assoc]
        rfl
      · intro k hk
        rcases List.mem_cons.mp hk with h | h
        · simp [h]
        · simpa using Or.inr (hsub k h)

theorem addCountRows_inv (fieldsAll : List String) (field : String)
    (rows : List (Nat × Nat)) (acc : List (Nat × List (String × Nat)))
    (hf : field ∈ fieldsAll)
    (hinv : ∀ st e, lookupA acc st = some e → ∀ k ∈ keysA e, k ∈ fieldsAll) :
    ∀ st e, lookupA (addCountRows field rows acc) st = some e →
      ∀ k ∈ keysA e, k ∈ fieldsAll := by
  induction rows generalizing acc with
  | nil => exact hinv
  | cons p ps ih =>
    unfold addCountRows
    rw [List.foldl_cons]
    apply ih
    intro st e hlook k hk
    rw [lookupA_setA] at hlook
    by_cases hst : p.1 = st
    · rw [if_pos hst] at hlook
      have he : e = setA ((lookupA acc p.1).getD []) field p.2 :=
        (Option.some.injEq _ _ ▸ hlook).symm
      subst he
      rw [keysA_setA] at hk
      have hcur : ∀ k₀ ∈ keysA ((lookupA acc p.1).getD []), k₀ ∈ fieldsAll := by
        cases hc : lookupA acc p.1 with
        | none => simp [keysA]
        | some e₀ => simpa using hinv p.1 e₀ hc
      by_cases hfm : field ∈ keysA ((lookupA acc p.1).getD [])
      · rw [if_pos hfm] at hk
        exact hcur k hk
      · rw [if_neg hfm] at hk
        rcases List.mem_append.mp hk with h | h
        · exact hcur k h
        · rw [List.mem_singleton.mp h]
          exact hf
    · rw [if_neg hst] at hlook
      exact hinv st e hlook k hk

theorem countsByState_keys (countRes : String → List (Nat × Nat))
    (fields : List String) :
    ∀ st e, lookupA (countsByState countRes fields) st = some e →
      ∀ k ∈ keysA e, k ∈ fields := by
  have main : ∀ (fs : List String) (acc : List (Nat × List (String × Nat))),
      (∀ g ∈ fs, g ∈ fields) →
      (∀ st e, lookupA acc st = some e → ∀ k ∈ keysA e, k ∈ fields) →
      ∀ st e, lookupA (fs.foldl (fun acc field =>
          match countFieldSpec field with
          | some (_, levelName) =>
            addCountRows field (countRes (pyLower levelName)) acc
          | none => acc) acc) st = some e → ∀ k ∈ keysA e, k ∈ fields := by
    intro fs
    induction fs with
    | nil => exact fun acc _ hinv => hinv
    | cons g gs ih =>
      intro acc hfs hinv
      rw [List.foldl_cons]
      apply ih
      · exact fun x hx => hfs x (List.mem_cons_of_mem _ hx)
      · cases hspec : countFieldSpec g with
        | none => simpa [hspec] using hinv
        | some pr =>
          obtain ⟨col, lvl⟩ := pr
          simp only [hspec]
          exact addCountRows_inv fields g _ acc (hfs g (List.mem_cons_self _ _)) hinv
  exact main fields [] (fun g hg => hg) (by simp)

theorem mergeCounts_shape (counts : List (Nat × List (String × Nat)))
    (objList : List (List (String × JVal))) :
    ∀ objs, mergeCounts counts objList = .ok objs →
    ∀ o ∈ objs, ∃ src entries, src ∈ objList ∧
      o = entries.foldl (fun ob p => setA ob p.1 (JVal.nat p.2)) src ∧
      (entries = [] ∨ ∃ st, lookupA counts st = some entries) := by
  induction objList with
  | nil =>
    intro objs hok o ho
    simp only [mergeCounts] at hok
    obtain rfl : ([] : List (List (String × JVal))) = objs :=
      Except.ok.injEq _ _ ▸ hok
    cases ho
  | cons obj rest ih =>
    intro objs hok o ho
    cases hl : lookupA obj "state" with
    | none => simp [mergeCounts, hl] at hok
    | some v =>
      cases hm : mergeCounts counts rest with
      | error e => simp [mergeCounts, hl, hm] at hok
      | ok os =>
        simp only [mergeCounts, hl, hm] at hok
        obtain rfl := (Except.ok.injEq _ _ ▸ hok)
        rcases List.mem_cons.mp ho with h | h
        · subst h
          cases v with
          | nat n =>
            cases hc : lookupA counts n with
            | none =>
              exact ⟨obj, [], List.mem_cons_self _ _, by simp [hc], Or.inl rfl⟩
            | some e =>
              exact ⟨obj, e, List.mem_cons_self _ _, by simp [hc], Or.inr ⟨n, hc⟩⟩
          | str s =>
            exact ⟨obj, [], List.mem_cons_self _ _, by simp, Or.inl rfl⟩
        · obtain ⟨src, entries, hsrc, heq, hent⟩ := ih os hm o h
          exact ⟨src, entries, List.mem_cons_of_mem _ hsrc, heq, hent⟩

/-- C4 amended: for a truthy caller-supplied field list, every output key
comes from the intersection of the caller's list with the allow-list, but the
key order follows the caller's request: the selected base columns in the
caller's order first, then selected count fields -- not the allow-list's
declared order, so permuted field lists are not guaranteed identical key
order. -/
theorem fields_projection_caller_order (f : String) (stateRows : List Row)
    (countRes : String → List (Nat × Nat))
    (objs : List (List (String × JVal))) (o : List (String × JVal))
    (hf : f ≠ "")
    (hok : list_states (some f) stateRows countRes = .ok objs)
    (ho : o ∈ objs) :
    (∀ k ∈ keysA o, k ∈ parseFields f) ∧
    ∃ rest, keysA o = selBaseOf f ++ rest ∧ ∀ k ∈ rest, k ∈ selCountsOf f := by
  have htruthy : truTruthy (some f) = true := by simp [truTruthy, hf]
  unfold list_states at hok
  rw [if_pos htruthy] at hok
  simp only [Option.getD_some] at hok
  by_cases hsel : parseFields f = []
  · rw [if_pos hsel] at hok
    cases hok
  · rw [if_neg hsel] at hok
    have hbody := runTry_ok _ _ hok
    unfold listStatesBody at hbody
    obtain ⟨src, entries, hsrc, heq, hent⟩ :=
      mergeCounts_shape _ _ _ hbody o ho
    obtain ⟨r, hr, hpr⟩ := List.mem_map.mp hsrc
    obtain ⟨rest, hkeys, hrest⟩ := keysA_foldl_setA entries src
    have hsrckeys : keysA src =
        (parseFields f).filter (fun g => baseColumns.contains g) := by
      rw [← hpr, keysA_projectedRow]
    have hentkeys : ∀ k ∈ entries.map Prod.fst,
        k ∈ (parseFields f).filter (fun g => countFieldNames.contains g) := by
      rcases hent with hnil | ⟨st, hst⟩
      · simp [hnil]
      · exact fun k hk => countsByState_keys countRes _ st entries hst k hk
    have hokeys : keysA o = selBaseOf f ++ rest := by
      rw [heq] at *
      rw [hkeys, hsrckeys]
      rfl
    constructor
    · intro k hk
      rw [hokeys] at hk
      rcases List.mem_append.mp hk with h | h
      · exact (List.mem_filter.mp h).1
      · exact (List.mem_filter.mp (hentkeys k (hrest k h))).1
    · exact ⟨rest, hokeys, fun k hk => hentkeys k (hrest k hk)⟩

theorem fields_projection_caller_order_witness :
    (∀ k ∈ keysA [("name", JVal.str "Karnataka"), ("state", JVal.nat 1)],
        k ∈ parseFields "name,state") ∧
    ∃ rest, keysA [("name", JVal.str "Karnataka"), ("state", JVal.nat 1)] =
      selBaseOf "name,state" ++ rest ∧ ∀ k ∈ rest, k ∈ selCountsOf "name,state" :=
  fields_projection_caller_order "name,state"
    [{ state := 1, name := "Karnataka" }] (fun _ => [])
    [[("name", JVal.str "Karnataka"), ("state", JVal.nat 1)]]
    [("name", JVal.str "Karnataka"), ("state", JVal.nat 1)]
    (by decide) rfl (by simp)

/-- C4 counterexample: the requests fields=name,state and fields=state,name
select permutations of the same set, yet the emitted objects carry the keys
in the caller's order (name before state versus state before name), not in
the allow-list's declared order (which lists state before name), so the two
outputs do not have identical key order. -/
theorem fields_projection_order_cex :
    list_states (some "name,state") [{ state := 1, name := "Karnataka" }]
      (fun _ => []) =
      .ok [[("name", JVal.str "Karnataka"), ("state", JVal.nat 1)]] ∧
    list_states (some "state,name") [{ state := 1, name := "Karnataka" }]
      (fun _ => []) =
      .ok [[("state", JVal.nat 1), ("name", JVal.str "Karnataka")]] ∧
    (["name", "state"] : List String) ≠ ["state", "name"] ∧
    allowedFields.filter (fun g => (["name", "state"] : List String).contains g) =
      ["state", "name"] :=
  ⟨rfl, rfl, by decide, by decide⟩

/-! ## C5: name resolution -/

/-- C5 counterexample: two distinct (code, name) pairs match the normalized
name "goa".  The resolver returns whichever row the store lists first: for
the enumeration [(5, Goa), (3, GOA)] it returns code 5, not the lowest
matching code 3, and the reversed enumeration of the same content returns a
different code, so the result is not determined by the store content alone. -/
theorem resolver_not_lowest_cex :
    (∀ m ∈ [(⟨"Goa", 5⟩ : MetaRow), ⟨"GOA", 3⟩], trimLower m.name = "goa") ∧
    resolveStateRow [⟨"Goa", 5⟩, ⟨"GOA", 3⟩] = some ⟨"Goa", 5⟩ ∧
    resolveStateRow [⟨"GOA", 3⟩, ⟨"Goa", 5⟩] = some ⟨"GOA", 3⟩ ∧
    List.Perm [(⟨"Goa", 5⟩ : MetaRow), ⟨"GOA", 3⟩] [⟨"GOA", 3⟩, ⟨"Goa", 5⟩] ∧
    (5 : Nat) ≠ 3 :=
  ⟨by decide, rfl, rfl, List.Perm.swap _ _ _, by decide⟩

/-- C5 amended: the resolver returns the first row of the store's result
sequence (the query has LIMIT 1 and no ORDER BY): whenever any matching pair
exists it returns one of the matching (code, name) pairs, but no lowest-code
tie-break is applied and the returned code depends on the store's
enumeration order. -/
theorem resolver_returns_first_match (queryName : String) (db : List Row)
    (matching : List MetaRow)
    (hm : ∀ m ∈ matching, ∃ r ∈ db, stateNameMatches queryName r ∧
      m.name = r.name ∧ m.state = r.state)
    (hne : matching ≠ []) :
    ∃ m, resolveStateRow matching = some m ∧ m ∈ matching ∧
      ∃ r ∈ db, stateNameMatches queryName r ∧ m.name = r.name ∧
        m.state = r.state := by
  obtain ⟨m, rest, rfl⟩ := List.exists_cons_of_ne_nil hne
  exact ⟨m, rfl, List.mem_cons_self _ _, hm m (List.mem_cons_self _ _)⟩

theorem resolver_returns_first_match_witness :
    ∃ m, resolveStateRow [⟨"Goa", 5⟩] = some m ∧
      m ∈ [(⟨"Goa", 5⟩ : MetaRow)] ∧
      ∃ r ∈ [({ level := "State", name := "Goa", state := 5 } : Row)],
        stateNameMatches "goa" r ∧ m.name = r.name ∧ m.state = r.state :=
  resolver_returns_first_match "goa"
    [{ level := "State", name := "Goa", state := 5 }] [⟨"Goa", 5⟩]
    (by
      intro m hmem
      rw [List.mem_singleton] at hmem
      subst hmem
      exact ⟨{ level := "State", name := "Goa", state := 5 },
        List.mem_cons_self _ _, ⟨by decide, by decide⟩, rfl, rfl⟩)
    (by simp)

/-! ## C6: place routing in hierarchy assembly -/

/-- C6 counterexample: the fetched place row with level value " Town " passes
the SQL fetch filter (its TRIM(LOWER(level)) is "town"), is not
case-insensitively equal to "town" (the whitespace differs) and is not
explicitly equal to "village", so the claim requires it to be dropped from
both buckets; the code instead routes it to the villages bucket. -/
theorem place_routing_cex :
    placesFilter 1
      { state := 1, district := 2, subdistt := 3, name := "X", level := " Town " }
      = true ∧
    ciEq " Town " "town" = false ∧
    (" Town " : String) ≠ "village" ∧
    place_map 1
      [{ state := 1, district := 2, subdistt := 3, name := "X", level := " Town " }]
      = [((2, 3), { towns := [], villages := ["X"] })] :=
  ⟨by decide, by decide, by decide, by decide⟩

theorem routeStep_towns_mono (places : List Row)
    (acc : List ((Nat × Nat) × Buckets)) (key : Nat × Nat) (x : String)
    (hx : x ∈ (bucketsAt acc key).towns) :
    x ∈ (bucketsAt (places.foldl routeStep acc) key).towns := by
  induction places generalizing acc with
  | nil => exact hx
  | cons q qs ih =>
    rw [List.foldl_cons]
    apply ih
    unfold routeStep bucketsAt
    by_cases hk : (q.district, q.subdistt) = key
    · rw [← hk] at hx ⊢
      by_cases ht : pyLower q.level = "town" <;>
        simp [ht, lookupA_setA, bucketsAt] at hx ⊢ <;> simp [hx]
    · by_cases ht : pyLower q.level = "town" <;>
        simp [ht, lookupA_setA, hk, bucketsAt] at hx ⊢ <;> exact hx

theorem routeStep_villages_mono (places : List Row)
    (acc : List ((Nat × Nat) × Buckets)) (key : Nat × Nat) (x : String)
    (hx : x ∈ (bucketsAt acc key).villages) :
    x ∈ (bucketsAt (places.foldl routeStep acc) key).villages := by
  induction places generalizing acc with
  | nil => exact hx
  | cons q qs ih =>
    rw [List.foldl_cons]
    apply ih
    unfold routeStep bucketsAt
    by_cases hk : (q.district, q.subdistt) = key
    · rw [← hk] at hx ⊢
      by_cases ht : pyLower q.level = "town" <;>
        simp [ht, lookupA_setA, bucketsAt] at hx ⊢ <;> simp [hx]
    · by_cases ht : pyLower q.level = "town" <;>
        simp [ht, lookupA_setA, hk, bucketsAt] at hx ⊢ <;> exact hx

/-- C6 amended: among the fetched place rows (whose TRIM(LOWER(level)) the
fetch query constrains to town or village), a row is routed to the towns
bucket of its (district, sub-district) key exactly when its lowercased,
untrimmed level equals "town", and to the villages bucket otherwise; no
fetched row is dropped. -/
theorem route_mem (places : List Row) (acc : List ((Nat × Nat) × Buckets))
    (p : Row) (hp : p ∈ places) :
    (pyLower p.level = "town" →
      p.name ∈ (bucketsAt (places.foldl routeStep acc)
        (p.district, p.subdistt)).towns) ∧
    (pyLower p.level ≠ "town" →
      p.name ∈ (bucketsAt (places.foldl routeStep acc)
        (p.district, p.subdistt)).villages) := by
  induction places generalizing acc with
  | nil => cases hp
  | cons q qs ih =>
    rw [List.foldl_cons]
    rcases List.mem_cons.mp hp with h | h
    · subst h
      constructor
      · intro ht
        apply routeStep_towns_mono
        unfold routeStep bucketsAt
        simp [ht, lookupA_setA]
      · intro ht
        apply routeStep_villages_mono
        unfold routeStep bucketsAt
        simp [ht, lookupA_setA]
    · exact ih (routeStep acc q) h

/-- C6 amended: among the fetched place rows (whose TRIM(LOWER(level)) the
fetch query constrains to town or village), a row is routed to the towns
bucket of its (district, sub-district) key exactly when its lowercased,
untrimmed level equals "town", and to the villages bucket otherwise; no
fetched row is dropped. -/
theorem place_routing_amended (stateCode : Nat) (db : List Row) (p : Row)
    (hp : p ∈ db) (hf : placesFilter stateCode p = true) :
    (pyLower p.level = "town" →
      p.name ∈ (bucketsAt (place_map stateCode db)
        (p.district, p.subdistt)).towns) ∧
    (pyLower p.level ≠ "town" →
      p.name ∈ (bucketsAt (place_map stateCode db)
        (p.district, p.subdistt)).villages) := by
  unfold place_map
  exact route_mem _ [] p (List.mem_filter.mpr ⟨hp, hf⟩)

theorem place_routing_amended_witness :
    (pyLower "Town" = "town" →
      "X" ∈ (bucketsAt (place_map 1
        [{ state := 1, district := 2, subdistt := 3, name := "X", level := "Town" }])
        (2, 3)).towns) ∧
    (pyLower "Town" ≠ "town" →
      "X" ∈ (bucketsAt (place_map 1
        [{ state := 1, district := 2, subdistt := 3, name := "X", level := "Town" }])
        (2, 3)).villages) :=
  place_routing_amended 1
    [{ state := 1, district := 2, subdistt := 3, name := "X", level := "Town" }]
    { state := 1, district := 2, subdistt := 3, name := "X", level := "Town" }
    (List.mem_cons_self _ _) (by decide)

/-! ## C1: TRU flatten/nest policy across endpoints -/

theorem setA_ne_nil {α β : Type} [DecidableEq α] (l : List (α × β)) (a : α)
    (b : β) : setA l a b ≠ [] := by
  cases l with
  | nil => simp [setA]
  | cons p rest =>
    obtain ⟨k, v⟩ := p
    by_cases h : k = a <;> simp [setA, h]

theorem lookupA_mem {α β : Type} [DecidableEq α] (l : List (α × β)) (a : α)
    (b : β) (h : lookupA l a = some b) : (a, b) ∈ l := by
  induction l with
  | nil => simp at h
  | cons p rest ih =>
    obtain ⟨k, v⟩ := p
    by_cases hk : k = a
    · subst hk
      simp at h
      simp [h]
    · simp only [lookupA_cons, if_neg hk] at h
      exact List.mem_cons_of_mem _ (ih h)

theorem setA_mem {α β : Type} [DecidableEq α] (l : List (α × β)) (a : α)
    (b : β) (p : α × β) (h : p ∈ setA l a b) : p = (a, b) ∨ p ∈ l := by
  induction l with
  | nil => simpa [setA] using h
  | cons q rest ih =>
    obtain ⟨k, v⟩ := q
    by_cases hk : k = a
    · subst hk
      simp only [setA, if_pos rfl] at h
      rcases List.mem_cons.mp h with h | h
      · exact Or.inl h
      · exact Or.inr (List.mem_cons_of_mem _ h)
    · simp only [setA, if_neg hk] at h
      rcases List.mem_cons.mp h with h | h
      · exact Or.inr (by simp [h])
      · rcases ih h with h | h
        · exact Or.inl h
        · exact Or.inr (List.mem_cons_of_mem _ h)

theorem genderFold_pop_mem (rows : List Row) (acc : List (Nat × GObj))
    (S : String → Prop)
    (hacc : ∀ p ∈ acc, p.2.population ≠ [] ∧
      ∀ t ∈ keysA p.2.population, S t)
    (hrows : ∀ r ∈ rows, S (pyLower r.tru)) :
    ∀ p ∈ rows.foldl genderStep acc, p.2.population ≠ [] ∧
      ∀ t ∈ keysA p.2.population, S t := by
  induction rows generalizing acc with
  | nil => exact hacc
  | cons r rs ih =>
    rw [List.foldl_cons]
    apply ih
    · intro p hp
      unfold genderStep at hp
      cases hl : lookupA acc r.state with
      | none =>
        rw [hl] at hp
        rcases List.mem_append.mp hp with h | h
        · exact hacc p h
        · rw [List.mem_singleton.mp h]
          refine ⟨by simp, ?_⟩
          intro t ht
          rw [show keysA [(pyLower r.tru, genderData r)] = [pyLower r.tru]
            from rfl] at ht
          rw [List.mem_singleton.mp ht]
          exact hrows r (List.mem_cons_self _ _)
      | some o =>
        rw [hl] at hp
        rcases setA_mem _ _ _ _ hp with h | h
        · obtain ⟨ho1, ho2⟩ := hacc (r.state, o) (lookupA_mem _ _ _ hl)
          rw [h]
          refine ⟨setA_ne_nil _ _ _, ?_⟩
          intro t ht
          rw [keysA_setA] at ht
          by_cases hm : pyLower r.tru ∈ keysA o.population
          · rw [if_pos hm] at ht
            exact ho2 t ht
          · rw [if_neg hm] at ht
            rcases List.mem_append.mp ht with h₀ | h₀
            · exact ho2 t h₀
            · rw [List.mem_singleton.mp h₀]
              exact hrows r (List.mem_cons_self _ _)
        · exact hacc p h
    · exact fun r₀ h₀ => hrows r₀ (List.mem_cons_of_mem _ h₀)

theorem litFold_flat_mem (rows : List Row) (acc : List ((Nat × String) × LJ))
    (hacc : ∀ p ∈ acc, ∃ a b c, p.2 =
      LJ.obj [("total", LJ.num a), ("male", LJ.num b), ("female", LJ.num c)]) :
    ∀ p ∈ rows.foldl (litStep false) acc, ∃ a b c, p.2 =
      LJ.obj [("total", LJ.num a), ("male", LJ.num b), ("female", LJ.num c)] := by
  induction rows generalizing acc with
  | nil => exact hacc
  | cons r rs ih =>
    rw [List.foldl_cons]
    apply ih
    intro p hp
    unfold litStep at hp
    rw [if_neg (by simp)] at hp
    rcases setA_mem _ _ _ _ hp with h | h
    · refine ⟨r.p_lit, r.m_lit, r.f_lit, ?_⟩
      rw [h]
      rfl
    · exact hacc p h

/-- C1 amended: the flatten/nest policy is not uniform across the endpoints
sharing the grouping pattern.  The gender endpoint (like state-population,
workers, caste and non-workers) always nests the metric block under the
lowercased TRU labels of the fetched rows, whether or not the request fixed
tru -- a fixed tru merely leaves a single nested entry and never a flat
block.  The literacy endpoint, by contrast, emits the metric block flat when
tru is fixed, but then adds a top-level tru field holding tru.capitalize(). -/
theorem tru_policy_not_uniform
    (states t : String) (rows : List Row) :
    (∀ objs : List GObj,
        get_state_gender_population states (some t) rows = .ok objs →
        ∀ o ∈ objs, o.population ≠ [] ∧
          ∀ tk ∈ keysA o.population, ∃ r ∈ rows, pyLower r.tru = tk) ∧
    (∀ objs : List LObj, t ≠ "" →
        get_state_literacy states (some t) rows = .ok objs →
        ∀ o ∈ objs, o.tru = some (pyCapitalize t) ∧
          ∃ a b c, o.literacy = LJ.obj
            [("total", LJ.num a), ("male", LJ.num b), ("female", LJ.num c)]) := by
  constructor
  · intro objs hok o ho
    unfold get_state_gender_population at hok
    by_cases h1 : truInvalid (some t) = true
    · rw [if_pos h1] at hok
      cases hok
    · rw [if_neg h1] at hok
      by_cases h2 : parseStates states = []
      · rw [if_pos h2] at hok
        cases hok
      · rw [if_neg h2] at hok
        have hbody := runTry_ok _ _ hok
        by_cases h3 : rows = []
        · rw [if_pos h3] at hbody
          cases hbody
        · rw [if_neg h3] at hbody
          obtain rfl : (genderGroup rows).map Prod.snd = objs :=
            Except.ok.injEq _ _ ▸ hbody
          obtain ⟨p, hp, rfl⟩ := List.mem_map.mp ho
          exact genderFold_pop_mem rows [] (fun tk => ∃ r ∈ rows, pyLower r.tru = tk)
            (by simp) (fun r hr => ⟨r, hr, rfl⟩) p hp
  · intro objs ht hok o ho
    unfold get_state_literacy at hok
    by_cases h1 : truInvalid (some t) = true
    · rw [if_pos h1] at hok
      cases hok
    · rw [if_neg h1] at hok
      by_cases h2 : parseStates states = []
      · rw [if_pos h2] at hok
        cases hok
      · rw [if_neg h2] at hok
        have hbody := runTry_ok _ _ hok
        by_cases h3 : rows = []
        · rw [if_pos h3] at hbody
          cases hbody
        · rw [if_neg h3] at hbody
          have htr : truTruthy (some t) = true := by simp [truTruthy, ht]
          rw [htr] at hbody
          obtain rfl := Except.ok.injEq _ _ ▸ hbody
          obtain ⟨p, hp, rfl⟩ := List.mem_map.mp ho
          refine ⟨by simp, ?_⟩
          have := litFold_flat_mem rows [] (by simp) p hp
          simpa using this

theorem tru_policy_not_uniform_witness :
    (∀ objs : List GObj,
        get_state_gender_population "karnataka" (some "rural")
          [{ state := 1, name := "Karnataka", level := "STATE", tru := "Rural", tot_p := 100, tot_m := 60, tot_f := 40 }] = .ok objs →
        ∀ o ∈ objs, o.population ≠ [] ∧
          ∀ tk ∈ keysA o.population,
            ∃ r ∈ [({ state := 1, name := "Karnataka", level := "STATE", tru := "Rural", tot_p := 100, tot_m := 60, tot_f := 40 } : Row)],
              pyLower r.tru = tk) ∧
    (∀ objs : List LObj, "rural" ≠ "" →
        get_state_literacy "karnataka" (some "rural")
          [{ state := 1, name := "Karnataka", level := "STATE", tru := "Rural", tot_p := 100, tot_m := 60, tot_f := 40 }] = .ok objs →
        ∀ o ∈ objs, o.tru = some (pyCapitalize "rural") ∧
          ∃ a b c, o.literacy = LJ.obj
            [("total", LJ.num a), ("male", LJ.num b), ("female", LJ.num c)]) :=
  tru_policy_not_uniform "karnataka" "rural"
    [{ state := 1, name := "Karnataka", level := "STATE", tru := "Rural", tot_p := 100, tot_m := 60, tot_f := 40 }]

/-- C1 counterexample: with tru fixed to rural and a single matching rural
row, the gender endpoint emits the metric block nested under the TRU key
"rural" -- not flat, and certainly not free of TRU keys as the claim
requires of every endpoint sharing the engine. -/
theorem tru_fixed_still_nested_cex :
    get_state_gender_population "karnataka" (some "rural")
      [{ state := 1, name := "Karnataka", level := "STATE", tru := "Rural", tot_p := 100, tot_m := 60, tot_f := 40 }] =
      .ok [{ name := "Karnataka", state := 1, population := [("rural", { total := 100, male := 60, female := 40 })] }] ∧
    "rural" ∈ allowedTru :=
  ⟨rfl, by decide⟩

/-! ## C9: households grouping -/

theorem firstRowFor_cons (r : Row) (rs : List Row) (k : Nat) :
    firstRowFor (r :: rs) k =
      if r.state = k then some r else firstRowFor rs k := by
  by_cases h : r.state = k <;> simp [firstRowFor, List.find?_cons, h]

theorem lookupA_append_single_self {α β : Type} [DecidableEq α]
    (l : List (α × β)) (a : α) (b : β) (h : lookupA l a = none) :
    lookupA (l ++ [(a, b)]) a = some b := by
  rw [lookupA_append, h]
  simp

theorem lookupA_append_single_other {α β : Type} [DecidableEq α]
    (l : List (α × β)) (a : α) (b : β) (k : α) (h : ¬ a = k) :
    lookupA (l ++ [(a, b)]) k = lookupA l k := by
  rw [lookupA_append]
  cases hl : lookupA l k <;> simp [hl, h]

theorem hhStep_core (acc : List (Nat × HObj)) (r : Row) (k : Nat) :
    Option.map hhCore (lookupA (hhStep false acc r) k) =
      match lookupA acc k with
      | some o => some (hhCore o)
      | none => if r.state = k then some (hhCoreOfRow r) else none := by
  unfold hhStep
  cases hl : lookupA acc r.state with
  | some o =>
    simp only [hl, Bool.false_eq_true, if_false]
    by_cases hk : r.state = k
    · subst hk
      rw [lookupA_setA, if_pos rfl, hl]
      simp [hhCore]
    · rw [lookupA_setA, if_neg hk]
      cases hak : lookupA acc k <;> simp [hak, hk]
  | none =>
    simp only [hl, Bool.false_eq_true, if_false]
    rw [lookupA_append_single_self _ _ _ hl]
    by_cases hk : r.state = k
    · subst hk
      rw [lookupA_setA, if_pos rfl, hl]
      simp [hhCore, hhCoreOfRow]
    · rw [lookupA_setA, if_neg hk, lookupA_append_single_other _ _ _ _ hk]
      cases hak : lookupA acc k <;> simp [hak, hk]

theorem hhStep_tru (acc : List (Nat × HObj)) (r : Row) (k : Nat) (t : String) :
    ((lookupA (hhStep false acc r) k).bind (fun o => hhTruLookup o t)) =
      (if r.state = k ∧ pyLower r.tru = t then some r.no_hh
       else (lookupA acc k).bind (fun o => hhTruLookup o t)) := by
  unfold hhStep
  cases hl : lookupA acc r.state with
  | some o =>
    simp only [hl, Bool.false_eq_true, if_false]
    by_cases hk : r.state = k
    · subst hk
      rw [lookupA_setA, if_pos rfl, hl]
      by_cases ht : pyLower r.tru = t
      · simp [hhTruLookup, lookupA_setA, ht]
      · cases hhh : o.households <;>
          simp [hhTruLookup, lookupA_setA, ht, hhh]
    · rw [lookupA_setA, if_neg hk]
      simp [hk]
  | none =>
    simp only [hl, Bool.false_eq_true, if_false]
    rw [lookupA_append_single_self _ _ _ hl]
    by_cases hk : r.state = k
    · subst hk
      rw [lookupA_setA, if_pos rfl, hl]
      by_cases ht : pyLower r.tru = t
      · simp [hhTruLookup, lookupA_setA, ht]
      · simp [hhTruLookup, lookupA_setA, ht]
    · rw [lookupA_setA, if_neg hk, lookupA_append_single_other _ _ _ _ hk]
      simp [hk]

theorem hhFold_core (rows : List Row) (acc : List (Nat × HObj)) (k : Nat) :
    Option.map hhCore (lookupA (rows.foldl (hhStep false) acc) k) =
      match lookupA acc k with
      | some o => some (hhCore o)
      | none => (firstRowFor rows k).map hhCoreOfRow := by
  induction rows generalizing acc with
  | nil => cases hak : lookupA acc k <;> simp [hak, firstRowFor]
  | cons r rs ih =>
    rw [List.foldl_cons, ih (hhStep false acc r)]
    have hstep := hhStep_core acc r k
    cases hak : lookupA acc k with
    | some o =>
      rw [hak] at hstep
      obtain ⟨o2, ho2, hco⟩ := Option.map_eq_some'.mp hstep
      rw [ho2]
      simp [hco]
    | none =>
      rw [hak] at hstep
      by_cases hk : r.state = k
      · rw [if_pos hk] at hstep
        obtain ⟨o2, ho2, hco⟩ := Option.map_eq_some'.mp hstep
        rw [ho2, firstRowFor_cons, if_pos hk]
        simp [hco]
      · rw [if_neg hk] at hstep
        rw [Option.map_eq_none'.mp hstep, firstRowFor_cons, if_neg hk]

theorem hhFold_tru (rows : List Row) (acc : List (Nat × HObj)) (k : Nat)
    (t : String) :
    (((lookupA (rows.foldl (hhStep false) acc) k).bind
        (fun o => hhTruLookup o t)).isSome = true) ↔
      ((∃ r ∈ rows, r.state = k ∧ pyLower r.tru = t) ∨
        ((lookupA acc k).bind (fun o => hhTruLookup o t)).isSome = true) := by
  induction rows generalizing acc with
  | nil => simp
  | cons r rs ih =>
    rw [List.foldl_cons, ih (hhStep false acc r), hhStep_tru]
    by_cases hc : r.state = k ∧ pyLower r.tru = t
    · rw [if_pos hc]
      constructor
      · intro _
        exact Or.inl ⟨r, List.mem_cons_self _ _, hc⟩
      · intro _
        exact Or.inr (by simp)
    · rw [if_neg hc]
      constructor
      · rintro (⟨x, hx, hxp⟩ | hacc2)
        · exact Or.inl ⟨x, List.mem_cons_of_mem _ hx, hxp⟩
        · exact Or.inr hacc2
      · rintro (⟨x, hx, hxp⟩ | hacc2)
        · rcases List.mem_cons.mp hx with h | h2
          · subst h
            exact absurd hxp hc
          · exact Or.inl ⟨x, h2, hxp⟩
        · exact Or.inr hacc2

theorem hhFold_byTru (rows : List Row) (acc : List (Nat × HObj))
    (hacc : ∀ p ∈ acc, ∃ l, p.2.households = HVal.byTru l) :
    ∀ p ∈ rows.foldl (hhStep false) acc,
      ∃ l, p.2.households = HVal.byTru l := by
  induction rows generalizing acc with
  | nil => exact hacc
  | cons r rs ih =>
    rw [List.foldl_cons]
    apply ih
    intro p hp
    unfold hhStep at hp
    simp only [Bool.false_eq_true, if_false] at hp
    cases hl : lookupA acc r.state with
    | some o =>
      simp only [hl] at hp
      rcases setA_mem _ _ _ _ hp with h | h
      · exact ⟨_, by rw [h]⟩
      · exact hacc p h
    | none =>
      simp only [hl] at hp
      rw [lookupA_append_single_self _ _ _ hl] at hp
      rcases setA_mem _ _ _ _ hp with h | h
      · exact ⟨_, by rw [h]⟩
      · rcases List.mem_append.mp h with h2 | h2
        · exact hacc p h2
        · rw [List.mem_singleton.mp h2]
          exact ⟨[], rfl⟩

/-- C9: with tru unset, a grouped households object nests its households
block per lowercased TRU label with an entry exactly for each TRU fetched
for that state, while its population and under_6 blocks come solely from the
first-fetched row of that state (whatever that row's TRU is) and are never
updated by later rows. -/
theorem households_nested_population_first (states : String) (rows : List Row)
    (k : Nat) (o : HObj)
    (hs : parseStates states ≠ []) (hr : rows ≠ [])
    (h : lookupA (hhGroup false rows) k = some o) :
    get_state_households states none rows =
      .ok ((hhGroup false rows).map Prod.snd) ∧
    (∃ r₀, firstRowFor rows k = some r₀ ∧ o.name = r₀.name ∧
      o.population = ⟨r₀.tot_p, r₀.tot_m, r₀.tot_f⟩ ∧
      o.under6 = ⟨r₀.p_06, r₀.m_06, r₀.f_06⟩) ∧
    (∃ l, o.households = HVal.byTru l ∧
      ∀ t, (lookupA l t).isSome = true ↔
        ∃ r ∈ rows, r.state = k ∧ pyLower r.tru = t) := by
  refine ⟨?_, ?_, ?_⟩
  · unfold get_state_households
    rw [if_neg (by decide), if_neg hs]
    unfold runTry
    rw [if_neg hr]
    rfl
  · have hc := hhFold_core rows [] k
    unfold hhGroup at h
    rw [h, lookupA_nil] at hc
    obtain ⟨r₀, hr₀, hcore⟩ := Option.map_eq_some'.mp hc.symm
    simp only [hhCore, hhCoreOfRow, Prod.mk.injEq] at hcore
    exact ⟨r₀, hr₀, hcore.1.symm, hcore.2.2.1.symm, hcore.2.2.2.symm⟩
  · obtain ⟨l, hl⟩ := hhFold_byTru rows [] (by simp) (k, o)
      (lookupA_mem _ _ _ h)
    refine ⟨l, hl, ?_⟩
    intro t
    have ht := hhFold_tru rows [] k t
    unfold hhGroup at h
    rw [h] at ht
    have hlt : hhTruLookup o t = lookupA l t := by
      unfold hhTruLookup
      rw [hl]
    simpa [hlt] using ht

theorem households_nested_population_first_witness :
    (get_state_households "karnataka" none
        [{ state := 1, name := "Karnataka", level := "STATE", tru := "Rural", no_hh := 10, tot_p := 100, tot_m := 60, tot_f := 40, p_06 := 9, m_06 := 5, f_06 := 4 },
         { state := 1, name := "Karnataka", level := "STATE", tru := "Urban", no_hh := 20, tot_p := 50, tot_m := 30, tot_f := 20, p_06 := 3, m_06 := 2, f_06 := 1 }] =
      .ok ((hhGroup false
        [{ state := 1, name := "Karnataka", level := "STATE", tru := "Rural", no_hh := 10, tot_p := 100, tot_m := 60, tot_f := 40, p_06 := 9, m_06 := 5, f_06 := 4 },
         { state := 1, name := "Karnataka", level := "STATE", tru := "Urban", no_hh := 20, tot_p := 50, tot_m := 30, tot_f := 20, p_06 := 3, m_06 := 2, f_06 := 1 }]).map Prod.snd)) ∧
    (∃ r₀, firstRowFor
        [{ state := 1, name := "Karnataka", level := "STATE", tru := "Rural", no_hh := 10, tot_p := 100, tot_m := 60, tot_f := 40, p_06 := 9, m_06 := 5, f_06 := 4 },
         { state := 1, name := "Karnataka", level := "STATE", tru := "Urban", no_hh := 20, tot_p := 50, tot_m := 30, tot_f := 20, p_06 := 3, m_06 := 2, f_06 := 1 }] 1 = some r₀ ∧
      HObj.name { name := "Karnataka", state := 1, households := HVal.byTru [("rural", 10), ("urban", 20)], population := ⟨100, 60, 40⟩, under6 := ⟨9, 5, 4⟩ } = r₀.name ∧
      HObj.population { name := "Karnataka", state := 1, households := HVal.byTru [("rural", 10), ("urban", 20)], population := ⟨100, 60, 40⟩, under6 := ⟨9, 5, 4⟩ } = ⟨r₀.tot_p, r₀.tot_m, r₀.tot_f⟩ ∧
      HObj.under6 { name := "Karnataka", state := 1, households := HVal.byTru [("rural", 10), ("urban", 20)], population := ⟨100, 60, 40⟩, under6 := ⟨9, 5, 4⟩ } = ⟨r₀.p_06, r₀.m_06, r₀.f_06⟩) ∧
    (∃ l, HObj.households { name := "Karnataka", state := 1, households := HVal.byTru [("rural", 10), ("urban", 20)], population := ⟨100, 60, 40⟩, under6 := ⟨9, 5, 4⟩ } = HVal.byTru l ∧
      ∀ t, (lookupA l t).isSome = true ↔
        ∃ r ∈ [({ state := 1, name := "Karnataka", level := "STATE", tru := "Rural", no_hh := 10, tot_p := 100, tot_m := 60, tot_f := 40, p_06 := 9, m_06 := 5, f_06 := 4 } : Row),
               { state := 1, name := "Karnataka", level := "STATE", tru := "Urban", no_hh := 20, tot_p := 50, tot_m := 30, tot_f := 20, p_06 := 3, m_06 := 2, f_06 := 1 }],
          r.state = 1 ∧ pyLower r.tru = t) :=
  households_nested_population_first "karnataka"
    [{ state := 1, name := "Karnataka", level := "STATE", tru := "Rural", no_hh := 10, tot_p := 100, tot_m := 60, tot_f := 40, p_06 := 9, m_06 := 5, f_06 := 4 },
     { state := 1, name := "Karnataka", level := "STATE", tru := "Urban", no_hh := 20, tot_p := 50, tot_m := 30, tot_f := 20, p_06 := 3, m_06 := 2, f_06 := 1 }]
    1
    { name := "Karnataka", state := 1, households := HVal.byTru [("rural", 10), ("urban", 20)], population := ⟨100, 60, 40⟩, under6 := ⟨9, 5, 4⟩ }
    (by decide) (by simp) (by decide)

/-! ## C7: order-independence of grouping -/

theorem getLast?_cons_eq {α : Type} (a : α) (l : List α) :
    (a :: l).getLast? =
      match l.getLast? with
      | some x => some x
      | none => some a := by
  induction l generalizing a with
  | nil => rfl
  | cons b m ih =>
    rw [List.getLast?_cons_cons, ih b]
    cases hm : m.getLast? <;> simp

theorem lastRowFor_cons (r : Row) (rs : List Row) (k : Nat) (t : String) :
    lastRowFor (r :: rs) k t =
      match lastRowFor rs k t with
      | some x => some x
      | none =>
        if r.state = k ∧ pyLower r.tru = t then some r else none := by
  unfold lastRowFor
  by_cases hp : r.state = k ∧ pyLower r.tru = t
  · have hb : (r.state == k && (pyLower r.tru == t)) = true := by
      simp [hp.1, hp.2]
    rw [List.filter_cons, if_pos hb, getLast?_cons_eq]
    cases hf : (rs.filter (fun r => r.state == k && (pyLower r.tru == t))).getLast? <;>
      simp [hp]
  · have hb : (r.state == k && (pyLower r.tru == t)) = false := by
      rcases not_and_or.mp hp with h | h <;> simp [h]
    rw [List.filter_cons, hb]
    simp only [Bool.false_eq_true, if_false]
    cases hf : (rs.filter (fun r => r.state == k && (pyLower r.tru == t))).getLast? <;>
      simp [hp]

theorem genderStep_core (acc : List (Nat × GObj)) (r : Row) (k : Nat) :
    Option.map gCore (lookupA (genderStep acc r) k) =
      match lookupA acc k with
      | some o => some (gCore o)
      | none => if r.state = k then some (gCoreOfRow r) else none := by
  unfold genderStep
  cases hl : lookupA acc r.state with
  | some o =>
    by_cases hk : r.state = k
    · subst hk
      rw [lookupA_setA, if_pos rfl, hl]
      simp [gCore]
    · rw [lookupA_setA, if_neg hk]
      cases hak : lookupA acc k <;> simp [hak, hk]
  | none =>
    by_cases hk : r.state = k
    · subst hk
      rw [lookupA_append_single_self _ _ _ hl, hl]
      simp [gCore, gCoreOfRow]
    · rw [lookupA_append_single_other _ _ _ _ hk]
      cases hak : lookupA acc k <;> simp [hak, hk]

theorem genderFold_core (rows : List Row) (acc : List (Nat × GObj)) (k : Nat) :
    Option.map gCore (lookupA (rows.foldl genderStep acc) k) =
      match lookupA acc k with
      | some o => some (gCore o)
      | none => (firstRowFor rows k).map gCoreOfRow := by
  induction rows generalizing acc with
  | nil => cases hak : lookupA acc k <;> simp [hak, firstRowFor]
  | cons r rs ih =>
    rw [List.foldl_cons, ih (genderStep acc r)]
    have hstep := genderStep_core acc r k
    cases hak : lookupA acc k with
    | some o =>
      rw [hak] at hstep
      obtain ⟨o2, ho2, hco⟩ := Option.map_eq_some'.mp hstep
      rw [ho2]
      simp [hco]
    | none =>
      rw [hak] at hstep
      by_cases hk : r.state = k
      · rw [if_pos hk] at hstep
        obtain ⟨o2, ho2, hco⟩ := Option.map_eq_some'.mp hstep
        rw [ho2, firstRowFor_cons, if_pos hk]
        simp [hco]
      · rw [if_neg hk] at hstep
        rw [Option.map_eq_none'.mp hstep, firstRowFor_cons, if_neg hk]

theorem genderStep_tru (acc : List (Nat × GObj)) (r : Row) (k : Nat)
    (t : String) :
    ((lookupA (genderStep acc r) k).bind (fun o => lookupA o.population t)) =
      (if r.state = k ∧ pyLower r.tru = t then some (genderData r)
       else (lookupA acc k).bind (fun o => lookupA o.population t)) := by
  unfold genderStep
  cases hl : lookupA acc r.state with
  | some o =>
    by_cases hk : r.state = k
    · subst hk
      rw [lookupA_setA, if_pos rfl, hl]
      by_cases ht : pyLower r.tru = t <;> simp [lookupA_setA, ht]
    · rw [lookupA_setA, if_neg hk]
      simp [hk]
  | none =>
    by_cases hk : r.state = k
    · subst hk
      rw [lookupA_append_single_self _ _ _ hl, hl]
      by_cases ht : pyLower r.tru = t <;> simp [ht]
    · rw [lookupA_append_single_other _ _ _ _ hk]
      simp [hk]

theorem genderFold_tru (rows : List Row) (acc : List (Nat × GObj)) (k : Nat)
    (t : String) :
    ((lookupA (rows.foldl genderStep acc) k).bind
        (fun o => lookupA o.population t)) =
      match lastRowFor rows k t with
      | some x => some (genderData x)
      | none => (lookupA acc k).bind (fun o => lookupA o.population t) := by
  induction rows generalizing acc with
  | nil => simp [lastRowFor]
  | cons r rs ih =>
    rw [List.foldl_cons, ih (genderStep acc r), genderStep_tru, lastRowFor_cons]
    cases hr : lastRowFor rs k t with
    | some x => simp
    | none => by_cases hc : r.state = k ∧ pyLower r.tru = t <;> simp [hc]

theorem lastRowFor_unique (l : List Row) (k : Nat) (t : String) :
    UniqueByKeyTru l → ∀ r,
      (lastRowFor l k t = some r ↔
        (r ∈ l ∧ r.state = k ∧ pyLower r.tru = t)) := by
  induction l with
  | nil =>
    intro _ r
    simp [lastRowFor]
  | cons x xs ih =>
    intro huniq r
    obtain ⟨hx, huniq2⟩ := List.pairwise_cons.mp huniq
    rw [lastRowFor_cons]
    by_cases hpx : x.state = k ∧ pyLower x.tru = t
    · have hnone : lastRowFor xs k t = none := by
        cases hlast : lastRowFor xs k t with
        | none => rfl
        | some y =>
          have hy := (ih huniq2 y).mp hlast
          refine absurd (show truKeyOf x = truKeyOf y from ?_) (hx y hy.1)
          unfold truKeyOf
          rw [hpx.1, hpx.2, hy.2.1, hy.2.2]
      rw [hnone]
      simp only [if_pos hpx]
      constructor
      · intro hsome
        obtain rfl : x = r := by
          injection hsome
        exact ⟨List.mem_cons_self _ _, hpx⟩
      · rintro ⟨hmem, hpr⟩
        rcases List.mem_cons.mp hmem with rfl | hmem2
        · rfl
        · refine absurd (show truKeyOf x = truKeyOf r from ?_) (hx r hmem2)
          unfold truKeyOf
          rw [hpx.1, hpx.2, hpr.1, hpr.2]
    · have hiff := ih huniq2 r
      cases hlast : lastRowFor xs k t with
      | some y =>
        rw [hlast] at hiff
        constructor
        · intro h2
          have := hiff.mp h2
          exact ⟨List.mem_cons_of_mem _ this.1, this.2⟩
        · rintro ⟨hmem, hpr⟩
          rcases List.mem_cons.mp hmem with rfl | hm2
          · exact absurd hpr hpx
          · exact hiff.mpr ⟨hm2, hpr⟩
      | none =>
        rw [hlast] at hiff
        simp only [if_neg hpx]
        constructor
        · intro h2
          cases h2
        · rintro ⟨hmem, hpr⟩
          rcases List.mem_cons.mp hmem with rfl | hm2
          · exact absurd hpr hpx
          · exact hiff.mpr ⟨hm2, hpr⟩

theorem firstRowFor_state (rows : List Row) (k : Nat) (r : Row)
    (h : firstRowFor rows k = some r) : r.state = k := by
  unfold firstRowFor at h
  simpa using List.find?_some h

theorem firstRowFor_mem (rows : List Row) (k : Nat) (r : Row)
    (h : firstRowFor rows k = some r) : r ∈ rows := by
  unfold firstRowFor at h
  exact List.mem_of_find?_eq_some h

theorem firstRowFor_none (rows : List Row) (k : Nat)
    (h : firstRowFor rows k = none) : ∀ r ∈ rows, r.state ≠ k := by
  unfold firstRowFor at h
  intro r hr
  simpa using List.find?_eq_none.mp h r hr

/-- C7 amended: over row sequences satisfying the uniqueness invariant and
carrying one consistent display name per state code, the grouping yields the
same final mapping on every permutation of the sequence (in particular the
reversed one): compared extensionally, each key is present in one run iff in
the other, with equal name and state, and with per-TRU metric blocks that
agree as mappings from TRU label to metrics. -/
theorem grouping_order_invariant (l₁ l₂ : List Row) (hperm : l₁.Perm l₂)
    (huniq : UniqueByKeyTru l₁) (hname : NameConsistent l₁) :
    ∀ k, GObjEquiv (lookupA (genderGroup l₁) k) (lookupA (genderGroup l₂) k) := by
  intro k
  have huniq₂ : UniqueByKeyTru l₂ :=
    (List.Perm.pairwise_iff
      (fun {a b} (hab : truKeyOf a ≠ truKeyOf b) (he : truKeyOf b = truKeyOf a) =>
        hab he.symm) hperm).mp huniq
  have hcore₁ := genderFold_core l₁ [] k
  have hcore₂ := genderFold_core l₂ [] k
  simp only [lookupA_nil] at hcore₁ hcore₂
  unfold genderGroup GObjEquiv
  cases hg₁ : lookupA (List.foldl genderStep [] l₁) k with
  | none =>
    cases hg₂ : lookupA (List.foldl genderStep [] l₂) k with
    | none => trivial
    | some o₂ =>
      rw [hg₁] at hcore₁
      rw [hg₂] at hcore₂
      obtain ⟨r₂, hr₂, _⟩ := Option.map_eq_some'.mp hcore₂.symm
      have hmem₁ : r₂ ∈ l₁ := (hperm.mem_iff).mpr (firstRowFor_mem _ _ _ hr₂)
      have hnone : firstRowFor l₁ k = none := Option.map_eq_none'.mp hcore₁.symm
      exact absurd (firstRowFor_state _ _ _ hr₂) (firstRowFor_none _ _ hnone r₂ hmem₁)
  | some o₁ =>
    cases hg₂ : lookupA (List.foldl genderStep [] l₂) k with
    | none =>
      rw [hg₁] at hcore₁
      rw [hg₂] at hcore₂
      obtain ⟨r₁, hr₁, _⟩ := Option.map_eq_some'.mp hcore₁.symm
      have hmem₂ : r₁ ∈ l₂ := (hperm.mem_iff).mp (firstRowFor_mem _ _ _ hr₁)
      have hnone : firstRowFor l₂ k = none := Option.map_eq_none'.mp hcore₂.symm
      exact absurd (firstRowFor_state _ _ _ hr₁) (firstRowFor_none _ _ hnone r₁ hmem₂)
    | some o₂ =>
      rw [hg₁] at hcore₁
      rw [hg₂] at hcore₂
      obtain ⟨r₁, hr₁, hc₁⟩ := Option.map_eq_some'.mp hcore₁.symm
      obtain ⟨r₂, hr₂, hc₂⟩ := Option.map_eq_some'.mp hcore₂.symm
      simp only [gCore, gCoreOfRow, Prod.mk.injEq] at hc₁ hc₂
      have hst₁ : r₁.state = k := firstRowFor_state _ _ _ hr₁
      have hst₂ : r₂.state = k := firstRowFor_state _ _ _ hr₂
      have hm₁ : r₁ ∈ l₁ := firstRowFor_mem _ _ _ hr₁
      have hm₂ : r₂ ∈ l₁ := (hperm.mem_iff).mpr (firstRowFor_mem _ _ _ hr₂)
      have hnames : r₁.name = r₂.name :=
        hname r₁ hm₁ r₂ hm₂ (hst₁.trans hst₂.symm)
      refine ⟨?_, ?_, ?_⟩
      · rw [← hc₁.1, ← hc₂.1, hnames]
      · rw [← hc₁.2, ← hc₂.2, hst₁, hst₂]
      · intro t
        have ht₁ := genderFold_tru l₁ [] k t
        have ht₂ := genderFold_tru l₂ [] k t
        rw [hg₁] at ht₁
        rw [hg₂] at ht₂
        rw [show ((some o₁).bind (fun o => lookupA o.population t)) =
          lookupA o₁.population t from rfl] at ht₁
        rw [show ((some o₂).bind (fun o => lookupA o.population t)) =
          lookupA o₂.population t from rfl] at ht₂
        rw [ht₁, ht₂]
        cases hl₁ : lastRowFor l₁ k t with
        | some x =>
          have hx := (lastRowFor_unique l₁ k t huniq x).mp hl₁
          have hx₂ : lastRowFor l₂ k t = some x :=
            (lastRowFor_unique l₂ k t huniq₂ x).mpr
              ⟨(hperm.mem_iff).mp hx.1, hx.2⟩
          rw [hx₂]
        | none =>
          have hx₂ : lastRowFor l₂ k t = none := by
            cases hc : lastRowFor l₂ k t with
            | none => rfl
            | some y =>
              have hy := (lastRowFor_unique l₂ k t huniq₂ y).mp hc
              have hly : lastRowFor l₁ k t = some y :=
                (lastRowFor_unique l₁ k t huniq y).mpr
                  ⟨(hperm.mem_iff).mpr hy.1, hy.2⟩
              rw [hl₁] at hly
              cases hly
          rw [hx₂]

theorem grouping_order_invariant_witness :
    GObjEquiv
      (lookupA (genderGroup
        [{ state := 1, name := "Karnataka", tru := "Rural", tot_p := 100 },
         { state := 1, name := "Karnataka", tru := "Urban", tot_p := 50 }]) 1)
      (lookupA (genderGroup
        [{ state := 1, name := "Karnataka", tru := "Urban", tot_p := 50 },
         { state := 1, name := "Karnataka", tru := "Rural", tot_p := 100 }]) 1) :=
  grouping_order_invariant
    [{ state := 1, name := "Karnataka", tru := "Rural", tot_p := 100 },
     { state := 1, name := "Karnataka", tru := "Urban", tot_p := 50 }]
    [{ state := 1, name := "Karnataka", tru := "Urban", tot_p := 50 },
     { state := 1, name := "Karnataka", tru := "Rural", tot_p := 100 }]
    (List.Perm.swap _ _ _)
    (by unfold UniqueByKeyTru truKeyOf
        decide)
    (by unfold NameConsistent
        decide)
    1

/-- C7 counterexample: two rows of the same state with different display
names satisfy the uniqueness invariant (their TRUs differ), yet grouping the
original sequence seeds the object's name from the first row ("a") while
grouping the reversed sequence seeds it from the other row ("b"): the final
mappings from key 1 to output object differ. -/
theorem grouping_order_cex :
    UniqueByKeyTru
      [{ state := 1, name := "a", tru := "Rural" },
       { state := 1, name := "b", tru := "Urban" }] ∧
    (lookupA (genderGroup
      [{ state := 1, name := "a", tru := "Rural" },
       { state := 1, name := "b", tru := "Urban" }]) 1).map GObj.name =
      some "a" ∧
    (lookupA (genderGroup (List.reverse
      [{ state := 1, name := "a", tru := "Rural" },
       { state := 1, name := "b", tru := "Urban" }])) 1).map GObj.name =
      some "b" ∧
    some ("a" : String) ≠ some "b" :=
  ⟨by unfold UniqueByKeyTru truKeyOf
      decide,
   by decide, by decide, by decide⟩

end Census
